import Mathlib

/-!
Shallow embedding of the reimui immediate-mode UI core (src/src/lib.rs).

Conventions of the embedding:
* Rust `u32` values are modelled as `Nat`. The unchecked `+` / `-` of
  `Vec2::add`, `Vec2::sub` and `Rect::contains` are modelled with
  two's-complement (release-mode) wrap-around `% 2^32`; debug builds trap
  at exactly the inputs where the `% 2^32` reduction is non-trivial.
  `saturating_add` / `saturating_sub` / `saturating_mul` are modelled by
  clamping at the `u32` bounds (`Nat` subtraction already saturates at 0).
* Rust `f32` quantities (drag accumulator, percentages, text scale) are
  modelled as `ℚ`; every floating computation exercised by the proofs
  below is exact in binary floating point as well (halving, adding two
  equal halves, dividing a value by itself).
* `i32` is modelled as `ℤ` with explicit saturation at the `i32` bounds
  where the source saturates (`saturating_add`, `as i32` casts).
* Fallible operations (Rust `expect` / `unreachable!` panics on layout
  stack underflow or invalid command indices) return `Option`.
* `VecDeque<DrawCommand>` push_back order is modelled with a `List`
  appended at the tail.
-/

namespace Reimui

/-- `u32` modulus. -/
def u32Size : Nat := 2 ^ 32

/-- Largest `u32` value. -/
def u32Max : Nat := u32Size - 1

/-- Release-mode `u32` addition: wraps modulo `2^32`. -/
def wrapAdd (a b : Nat) : Nat := (a + b) % u32Size

/-- Release-mode `u32` subtraction: wraps modulo `2^32` (for `a b < 2^32`). -/
def wrapSub (a b : Nat) : Nat := (a + (u32Size - b % u32Size)) % u32Size

/-- `u32::saturating_add`. -/
def satAdd (a b : Nat) : Nat := min (a + b) u32Max

/-- `u32::saturating_sub` (on `Nat`, truncated subtraction is exactly saturation at 0). -/
def satSub (a b : Nat) : Nat := a - b

/-- `u32::saturating_mul`. -/
def satMul (a b : Nat) : Nat := min (a * b) u32Max

/-- `ButtonState` (src/src/lib.rs:61). -/
inductive ButtonState where
  | Down
  | Up
deriving DecidableEq, Repr

/-- `Vec2` (src/src/lib.rs:67): a pair of `u32` pixel coordinates. -/
structure Vec2 where
  x : Nat
  y : Nat
deriving DecidableEq, Repr

namespace Vec2

def zero : Vec2 := ⟨0, 0⟩

/-- `Vec2::add` (src/src/lib.rs:82): unchecked `u32` addition. -/
def add (a b : Vec2) : Vec2 := ⟨wrapAdd a.x b.x, wrapAdd a.y b.y⟩

/-- `Vec2::sub` (src/src/lib.rs:89): unchecked `u32` subtraction. -/
def sub (a b : Vec2) : Vec2 := ⟨wrapSub a.x b.x, wrapSub a.y b.y⟩

/-- `Vec2::div_cmp` (src/src/lib.rs:97): component-wise `u32` division. -/
def div_cmp (a : Vec2) (b : Nat) : Vec2 := ⟨a.x / b, a.y / b⟩

end Vec2

/-- `Rect` (src/src/lib.rs:106). -/
structure Rect where
  top_left : Vec2
  size : Vec2
deriving DecidableEq, Repr

/-- `Rect::contains` (src/src/lib.rs:112): inclusive on all edges,
`top_left + size` computed with unchecked `u32` addition. -/
def Rect.contains (r : Rect) (point : Vec2) : Bool :=
  point.x ≥ r.top_left.x
    && point.x ≤ wrapAdd r.top_left.x r.size.x
    && point.y ≥ r.top_left.y
    && point.y ≤ wrapAdd r.top_left.y r.size.y

/-- Truncation toward zero of a rational, modelling `f32::trunc`. -/
def ratTrunc (q : ℚ) : ℤ :=
  if q.num < 0 then -((q.num.natAbs / q.den : ℕ) : ℤ) else ((q.num.natAbs / q.den : ℕ) : ℤ)

/-- Rust `Ord::clamp` (for `lo ≤ hi`, the only case the source exercises). -/
def rustClamp {α : Type} [LinearOrder α] (v lo hi : α) : α :=
  if v < lo then lo else if v > hi then hi else v

/-- Smallest `i32` value. -/
def i32Min : ℤ := -(2 ^ 31)

/-- Largest `i32` value. -/
def i32Max : ℤ := 2 ^ 31 - 1

/-- `i32::saturating_add`. -/
def satAddI32 (a b : ℤ) : ℤ := rustClamp (a + b) i32Min i32Max

/-- `i32::saturating_sub`. -/
def satSubI32 (a b : ℤ) : ℤ := rustClamp (a - b) i32Min i32Max

/-- Rust saturating `f32 → u32` cast (`as u32`): truncates toward zero and
clamps to the `u32` range. -/
def q32 (q : ℚ) : Nat :=
  if q ≤ 0 then 0 else min (ratTrunc q).toNat u32Max

-- The `flags` module (src/src/lib.rs:14).
namespace flags

def NONE : Nat := 0
def HOVER : Nat := 1 <<< 0
def DISABLED : Nat := 1 <<< 1
def ACTIVE : Nat := 1 <<< 2
def FOCUSED : Nat := 1 <<< 2

end flags

/-- `UIDrawRole` (src/src/lib.rs:210). -/
inductive UIDrawRole where
  | Text
  | ButtonText
  | ButtonBackground
  | SliderRect
  | SliderKnob
  | CheckboxBox
  | CheckboxCheck
  | LayoutBackground
deriving DecidableEq, Repr

/-- `DrawData` (src/src/lib.rs:130); a `ClassList` is its tag string. -/
structure DrawData where
  rect : Rect
  flags : Nat
  role : UIDrawRole
  class_list : Option String
deriving DecidableEq, Repr

/-- `DrawCommand` (src/src/lib.rs:139). -/
inductive DrawCommand where
  | DrawText (content : String) (text_scale : ℚ) (draw_data : DrawData)
  | DrawRect (draw_data : DrawData)
deriving DecidableEq, Repr

/-- `LayoutDirection` (src/src/lib.rs:151). -/
inductive LayoutDirection where
  | Vertical
  | Horizontal
deriving DecidableEq, Repr

/-- `Layout` (src/src/lib.rs:157). -/
structure Layout where
  direction : LayoutDirection
  spacing : Nat
  top_left : Vec2
  size : Vec2
deriving DecidableEq, Repr

/-- `Layout::recompute` (src/src/lib.rs:174): folds one child extent into
the running size and advances the cursor, with saturating `u32` arithmetic. -/
def Layout.recompute (l : Layout) (size : Vec2) : Layout :=
  match l.direction with
  | .Vertical =>
      let sy0 := if l.size.y ≠ 0 then satAdd l.size.y l.spacing else l.size.y
      { l with
        size := ⟨max l.size.x size.x, satAdd sy0 size.y⟩
        top_left := ⟨l.top_left.x, satAdd l.top_left.y (satAdd size.y l.spacing)⟩ }
  | .Horizontal =>
      let sx0 := if l.size.x ≠ 0 then satAdd l.size.x l.spacing else l.size.x
      { l with
        size := ⟨satAdd sx0 size.x, max l.size.y size.y⟩
        top_left := ⟨satAdd l.top_left.x (satAdd size.x l.spacing), l.top_left.y⟩ }

/-- `UIState` (src/src/lib.rs:248): the persistent cross-frame state. -/
structure UIState where
  active_rect : Option Rect
  last_mouse_position : Vec2
  active_drag_amt : ℚ
  focused : Option Rect
deriving DecidableEq, Repr

/-- `UIState::new` (src/src/lib.rs:262). -/
def UIState.new : UIState :=
  { active_rect := none
    last_mouse_position := Vec2.zero
    active_drag_amt := 0
    focused := none }

/-- The `SliderValue` trait (src/src/lib.rs:25), as a bundle of operations
over a value type `T`; percentages (`f32`) are modelled as `ℚ`. -/
structure SliderValueImpl (T : Type) where
  percentage : T → T → T → ℚ
  increment : T → T → T → T → T
  decrement : T → T → T → T → T
  clamp_value : T → T → T → T
  step_percentage : T → T → T → ℚ

/-- `SliderState` (src/src/lib.rs:33). -/
structure SliderState (T : Type) where
  value : T
  max : T
  min : T
  step : T

/-- The integer `SliderValue` implementations (`slider_value_impl!` macro,
src/src/lib.rs:1342), instantiated at `i32` semantics: `ℤ` with saturation
at the `i32` bounds in `increment`/`decrement`. -/
def i32Slider : SliderValueImpl ℤ where
  percentage := fun value min max =>
    if max = min then 0 else ((value : ℚ) - (min : ℚ)) / ((max : ℚ) - (min : ℚ))
  increment := fun value step min max => rustClamp (satAddI32 value step) min max
  decrement := fun value step min max => rustClamp (satSubI32 value step) min max
  clamp_value := fun value min max => rustClamp value min max
  step_percentage := fun step min max =>
    if step = 0 ∨ max = min then 0
    else
      let range : ℚ := |(max : ℚ) - (min : ℚ)|
      if range = 0 then 0 else |(step : ℚ)| / range

/-- The floating `SliderValue` implementations
(`slider_value_impl_floating!` macro, src/src/lib.rs:1388), with `f32`/`f64`
modelled as `ℚ`. -/
def ratSlider : SliderValueImpl ℚ where
  percentage := fun value min max =>
    if max = min then 0 else (value - min) / (max - min)
  increment := fun value step min max => rustClamp (value + step) min max
  decrement := fun value step min max => rustClamp (value - step) min max
  clamp_value := fun value min max => rustClamp value min max
  step_percentage := fun step min max =>
    if step = 0 ∨ max = min then 0
    else
      let range : ℚ := max - min
      if range = 0 then 0 else |step / range|

/-- The drag-to-steps conversion at the heart of `UIContext::slider`
(src/src/lib.rs:679..714, the `is_active` body): accumulates the pointer
delta, converts whole steps (truncated quotient, `as i32` saturating cast),
applies that many increments or decrements, and keeps the remainder; with a
non-positive pixels-per-step a single increment or decrement is applied on
any nonzero drag and the accumulator resets. Returns the updated slider
state and the new drag accumulator. -/
def sliderDragStep {T : Type} (impl : SliderValueImpl T) (st : SliderState T)
    (drag_amt delta_x pixels_per_step : ℚ) : SliderState T × ℚ :=
  let drag := drag_amt + delta_x
  if pixels_per_step > 0 then
    let steps : ℚ := (ratTrunc (drag / pixels_per_step) : ℚ)
    let steps_i : ℤ := rustClamp (ratTrunc (drag / pixels_per_step)) i32Min i32Max
    if steps_i ≠ 0 then
      let value :=
        if steps_i > 0 then
          (fun v => impl.increment v st.step st.min st.max)^[steps_i.toNat] st.value
        else
          (fun v => impl.decrement v st.step st.min st.max)^[(-steps_i).toNat] st.value
      ({ st with value }, drag - steps * pixels_per_step)
    else (st, drag)
  else
    if drag > 0 then
      ({ st with value := impl.increment st.value st.step st.min st.max }, 0)
    else if drag < 0 then
      ({ st with value := impl.decrement st.value st.step st.min st.max }, 0)
    else (st, 0)

/-- `UIInputState` (src/src/lib.rs:283). -/
structure UIInputState where
  mouse_position : Vec2
  activate_button : ButtonState
  focus_next_button : ButtonState
deriving DecidableEq, Repr

/-- `UIResult` (src/src/lib.rs:277). -/
structure UIResult where
  new_state : UIState
  commands : List DrawCommand
deriving DecidableEq, Repr

/-- `UIContext` (src/src/lib.rs:310): the transient per-frame draw context.
The `FontInformation` collaborator is embedded as the function
`font_info : String → ℚ → Vec2` (its `compute_text_size` method).
The layout stack's top (`Vec::last`) is the head of the list. -/
structure UIContext where
  state : UIState
  font_info : String → ℚ → Vec2
  input_state : UIInputState
  hover_rect : Option Rect
  command_buffer : List DrawCommand
  layout_stack : List Layout
  next_class : Option String
  focusables : List Rect

namespace UIContext

/-- `UIContext::new` (src/src/lib.rs:327). -/
def new (state : UIState) (font_info : String → ℚ → Vec2)
    (input_state : UIInputState) : UIContext :=
  { state
    font_info
    input_state
    hover_rect := none
    command_buffer := []
    layout_stack := [⟨.Horizontal, 0, Vec2.zero, Vec2.zero⟩]
    next_class := none
    focusables := [] }

/-- `UIContext::get_current_layout` (src/src/lib.rs:377); `none` models the
"should always have a root layout" panic. -/
def get_current_layout (ctx : UIContext) : Option Layout :=
  ctx.layout_stack.head?

/-- `UIContext::recompute_current_layout` (src/src/lib.rs:383). -/
def recompute_current_layout (ctx : UIContext) (size : Vec2) : Option UIContext :=
  match ctx.layout_stack with
  | [] => none
  | l :: rest => some { ctx with layout_stack := l.recompute size :: rest }

/-- `UIContext::register_focusable` (src/src/lib.rs:390). -/
def register_focusable (ctx : UIContext) (rect : Rect) : UIContext × Bool :=
  ({ ctx with focusables := ctx.focusables ++ [rect] },
   ctx.state.focused = some rect)

/-- `UIContext::rect_raw` (src/src/lib.rs:419): appends a rectangle draw
command and returns its buffer index. -/
def rect_raw (ctx : UIContext) (rect : Rect) (flags : Nat) (role : UIDrawRole) :
    UIContext × Nat :=
  ({ ctx with
      command_buffer :=
        ctx.command_buffer ++ [.DrawRect ⟨rect, flags, role, ctx.next_class⟩] },
   ctx.command_buffer.length)

/-- `UIContext::text_raw` (src/src/lib.rs:432). -/
def text_raw (ctx : UIContext) (label : String) (rect : Rect) (flags : Nat)
    (role : UIDrawRole) (scale : ℚ) : UIContext :=
  { ctx with
      command_buffer :=
        ctx.command_buffer ++ [.DrawText label scale ⟨rect, flags, role, ctx.next_class⟩] }

/-- `UIContext::is_active` (src/src/lib.rs:499). -/
def is_active (ctx : UIContext) (rect : Rect) : Bool :=
  ctx.state.active_rect = some rect

/-- `UIContext::clicked_rect` (src/src/lib.rs:505). -/
def clicked_rect (ctx : UIContext) (rect : Rect) : Bool :=
  ctx.input_state.activate_button = .Up && ctx.is_active rect

/-- `UIContext::check_set_hover` (src/src/lib.rs:509). -/
def check_set_hover (ctx : UIContext) (rect : Rect) : UIContext × Bool :=
  let is_hover := rect.contains ctx.input_state.mouse_position
  (if is_hover then { ctx with hover_rect := some rect } else ctx, is_hover)

/-- The hover/active/focused flag assembly shared by the button and
checkbox widgets (src/src/lib.rs:470..479 and 600..609). -/
def widgetFlags (hovered active focused : Bool) : Nat :=
  (if hovered then flags.HOVER else flags.NONE)
    ||| (if active then flags.ACTIVE else flags.NONE)
    ||| (if focused then flags.FOCUSED else flags.NONE)

/-- `UIContext::button_raw` (src/src/lib.rs:452). Returns the updated
context and whether the button was clicked this frame. -/
def button_raw (ctx : UIContext) (top_left text_size padding : Vec2)
    (label : String) (text_scale : ℚ) : UIContext × Bool :=
  let button_size := Vec2.add text_size padding
  let rect : Rect := ⟨top_left, button_size⟩
  let hc := ctx.check_set_hover rect
  let hovered := hc.2
  let active := hc.1.is_active rect
  let fc := hc.1.register_focusable rect
  let focused := fc.2
  let fl := widgetFlags hovered active focused
  let half_padding := Vec2.div_cmp (Vec2.sub rect.size text_size) 2
  let centered_text_pos := Vec2.add rect.top_left half_padding
  let rc := fc.1.rect_raw rect fl .ButtonBackground
  let tc := rc.1.text_raw label ⟨centered_text_pos, text_size⟩ fl .ButtonText text_scale
  (tc, (hovered || focused) && tc.clicked_rect rect)

/-- `UIContext::text_scaled` (src/src/lib.rs:522). -/
def text_scaled (ctx : UIContext) (label : String) (rect : Rect) (scale : ℚ) :
    UIContext :=
  ctx.text_raw label rect flags.NONE .Text scale

/-- `UIContext::text_layout_scaled` (src/src/lib.rs:549): draws a text at
the current layout cursor and folds its size into the layout. -/
def text_layout_scaled (ctx : UIContext) (label : String) (scale : ℚ) :
    Option (UIContext × Vec2) :=
  match ctx.get_current_layout with
  | none => none
  | some layout =>
    let text_size := ctx.font_info label scale
    let ctx1 := ctx.text_scaled label ⟨layout.top_left, text_size⟩ scale
    match ctx1.recompute_current_layout text_size with
    | none => none
    | some ctx2 => some (ctx2, text_size)

/-- `UIContext::checkbox` (src/src/lib.rs:593). Returns the updated
context, the new value of the caller-owned `checked` flag, and whether the
checkbox toggled. -/
def checkbox (ctx : UIContext) (top_left size : Vec2) (checked : Bool) :
    UIContext × Bool × Bool :=
  let rect : Rect := ⟨top_left, size⟩
  let hc := ctx.check_set_hover rect
  let hovered := hc.2
  let active := hc.1.is_active rect
  let fc := hc.1.register_focusable rect
  let focused := fc.2
  let fl := widgetFlags hovered active focused
  let toggled := (hovered || focused) && fc.1.clicked_rect rect
  let checked1 := if toggled then !checked else checked
  let rc := (fc.1.rect_raw rect fl .CheckboxBox).1
  let ctx2 :=
    if checked1 then
      let inset : Vec2 := ⟨size.x / 4, size.y / 4⟩
      let check_top_left := Vec2.add rect.top_left inset
      let check_size : Vec2 :=
        ⟨satSub size.x (satMul inset.x 2), satSub size.y (satMul inset.y 2)⟩
      (rc.rect_raw ⟨check_top_left, check_size⟩ fl .CheckboxCheck).1
    else rc
  (ctx2, checked1, toggled)

/-- `UIContext::slider` (src/src/lib.rs:665). Returns the updated context
and the updated caller-owned slider state. -/
def slider {T : Type} (impl : SliderValueImpl T) (ctx : UIContext) (rect : Rect)
    (st : SliderState T) : UIContext × SliderState T :=
  let hc := ctx.check_set_hover rect
  let hovered := hc.2
  let is_active := hc.1.is_active rect
  let fc := hc.1.register_focusable rect
  let focused := fc.2
  let ctx1 := fc.1
  let knob_size : Vec2 := ⟨10, rect.size.y⟩
  let slider_span := satSub rect.size.x knob_size.x
  let pixels_per_step : ℚ :=
    if slider_span = 0 then 0
    else (slider_span : ℚ) * impl.step_percentage st.step st.min st.max
  let stepped :=
    if is_active then
      let delta_x : ℚ :=
        (ctx1.input_state.mouse_position.x : ℚ) - (ctx1.state.last_mouse_position.x : ℚ)
      let sd := sliderDragStep impl st ctx1.state.active_drag_amt delta_x pixels_per_step
      (sd.1, { ctx1 with state := { ctx1.state with active_drag_amt := sd.2 } })
    else (st, ctx1)
  let st1 := stepped.1
  let ctx2 := stepped.2
  let st2 := { st1 with value := impl.clamp_value st1.value st1.min st1.max }
  let value_percentage := rustClamp (impl.percentage st2.value st2.min st2.max) 0 1
  let fl := (if hovered then flags.HOVER else flags.NONE)
    ||| (if focused then flags.FOCUSED else flags.NONE)
  let knob_top_left := Vec2.add rect.top_left
    ⟨q32 ((satSub rect.size.x knob_size.x : ℚ) * value_percentage), 0⟩
  let rc := (ctx2.rect_raw rect fl .SliderRect).1
  let rc2 := (rc.rect_raw ⟨knob_top_left, knob_size⟩ fl .SliderKnob).1
  (rc2, st2)

/-- The context state `UIContext::layout_at` hands to its child closure
when a background was requested: the placeholder background command is
already emitted (`rect_raw`, whose returned index is the entry buffer
length) and the fresh layout is pushed (src/src/lib.rs:796..815). -/
def layoutEntry (ctx : UIContext) (top_left : Vec2)
    (direction : LayoutDirection) (spacing : Nat) : UIContext :=
  let rc := ctx.rect_raw ⟨top_left, Vec2.zero⟩ flags.NONE .LayoutBackground
  { rc.1 with
      layout_stack := ⟨direction, spacing, top_left, Vec2.zero⟩ :: rc.1.layout_stack }

/-- `UIContext::layout_at` (src/src/lib.rs:781): optionally emits a
placeholder background rectangle, pushes a fresh layout, runs the child
draw closure, pops the layout, folds its size into the parent, and patches
the background command in place with the final size. `none` models the
source's `expect`/`unreachable!` panics (layout-stack underflow inside the
closure, invalid or non-rectangle background index). -/
def layout_at {A : Type} (ctx : UIContext) (top_left : Vec2)
    (direction : LayoutDirection) (spacing : Nat) (with_bg : Bool)
    (draw : UIContext → UIContext × A) : Option (UIContext × A) :=
  let start :=
    if with_bg then
      (ctx.layoutEntry top_left direction spacing, some ctx.command_buffer.length)
    else
      ({ ctx with
          layout_stack := ⟨direction, spacing, top_left, Vec2.zero⟩ :: ctx.layout_stack },
       none)
  let dr := draw start.1
  let ret := dr.2
  match dr.1.layout_stack with
  | [] => none
  | layout :: rest =>
    match ({ dr.1 with layout_stack := rest } : UIContext).recompute_current_layout layout.size with
    | none => none
    | some ctx2 =>
      match start.2 with
      | none => some (ctx2, ret)
      | some bg_idx =>
        match ctx2.command_buffer[bg_idx]? with
        | some (.DrawRect dd) =>
          some ({ ctx2 with
                    command_buffer :=
                      ctx2.command_buffer.set bg_idx
                        (.DrawRect { dd with rect := { dd.rect with size := layout.size } }) },
                ret)
        | _ => none

/-- `UIContext::end` (src/src/lib.rs:849): frame finalization producing the
next persistent state and the drained command buffer. -/
def «end» (ctx : UIContext) : UIResult :=
  let st := ctx.state
  let st1 :=
    if ctx.input_state.activate_button = .Down then
      let target_rect :=
        match ctx.hover_rect with
        | some r => some r
        | none => st.focused
      { st with
          active_drag_amt :=
            if st.active_rect ≠ target_rect then 0 else st.active_drag_amt
          active_rect := target_rect }
    else
      { st with active_rect := none, active_drag_amt := 0 }
  let st2 :=
    if ctx.input_state.focus_next_button = .Down then
      match st1.focused with
      | some prev_focus_rect =>
        let next_idx :=
          match ctx.focusables.findIdx? (fun r => r = prev_focus_rect) with
          | some p => p + 1
          | none => 0
        { st1 with
            focused :=
              match ctx.focusables[next_idx]? with
              | some r => some r
              | none => ctx.focusables.head? }
      | none => { st1 with focused := ctx.focusables.head? }
    else st1
  { new_state := { st2 with last_mouse_position := ctx.input_state.mouse_position }
    commands := ctx.command_buffer }

end UIContext

/-- The per-frame effect of `UIContext::slider` on the caller's slider
state and the drag accumulator while the slider is active: the drag-step
conversion (src/src/lib.rs:679..714) followed by the unconditional clamp
(src/src/lib.rs:715). Returns (new slider state, new accumulator). -/
def sliderActiveFrame {T : Type} (impl : SliderValueImpl T) (st : SliderState T)
    (drag_amt delta_x pixels_per_step : ℚ) : SliderState T × ℚ :=
  let sd := sliderDragStep impl st drag_amt delta_x pixels_per_step
  ({ sd.1 with value := impl.clamp_value sd.1.value sd.1.min sd.1.max }, sd.2)

/-- N sequential `text_layout_scaled` calls (the "N sequential texts" of
the spec), one per label. -/
def layoutTexts (ctx : UIContext) (labels : List String) (scale : ℚ) :
    Option UIContext :=
  match labels with
  | [] => some ctx
  | l :: ls =>
    match ctx.text_layout_scaled l scale with
    | none => none
    | some p => layoutTexts p.1 ls scale

/-- The flag bits stamped on a draw command. -/
def DrawCommand.flagsOf : DrawCommand → Nat
  | .DrawText _ _ d => d.flags
  | .DrawRect d => d.flags

/-- Sum of the vertical extents of a list of child sizes. -/
def sumY (sizes : List Vec2) : Nat := (sizes.map Vec2.y).sum

/-- Sum of the horizontal extents of a list of child sizes. -/
def sumX (sizes : List Vec2) : Nat := (sizes.map Vec2.x).sum

/-- Maximum horizontal extent of a list of child sizes. -/
def maxX (sizes : List Vec2) : Nat := (sizes.map Vec2.x).foldr max 0

/-- Maximum vertical extent of a list of child sizes. -/
def maxY (sizes : List Vec2) : Nat := (sizes.map Vec2.y).foldr max 0

/-- Swap the two components of a `Vec2` (x ↔ y). -/
def Vec2.swap (v : Vec2) : Vec2 := ⟨v.y, v.x⟩

/-- Toggle a layout direction. -/
def LayoutDirection.swap : LayoutDirection → LayoutDirection
  | .Vertical => .Horizontal
  | .Horizontal => .Vertical

/-- Conjugate a layout by the axis swap. -/
def Layout.swap (l : Layout) : Layout :=
  ⟨l.direction.swap, l.spacing, l.top_left.swap, l.size.swap⟩

/-- A constant text-metrics collaborator used by the concrete witnesses
(every label measures 8×16 pixels, mirroring the repository's mock font at
one character). -/
def testFont : String → ℚ → Vec2 := fun _ _ => ⟨8, 16⟩

namespace UIContext

lemma check_set_hover_eq (ctx : UIContext) (r : Rect) :
    ctx.check_set_hover r =
      ({ ctx with
          hover_rect :=
            if r.contains ctx.input_state.mouse_position then some r
            else ctx.hover_rect },
       r.contains ctx.input_state.mouse_position) := by
  unfold check_set_hover
  split <;> simp_all

lemma button_raw_snd (ctx : UIContext) (top_left text_size padding : Vec2)
    (label : String) (scale : ℚ) :
    (ctx.button_raw top_left text_size padding label scale).2 =
      ((Rect.contains ⟨top_left, Vec2.add text_size padding⟩ ctx.input_state.mouse_position
          || decide (ctx.state.focused = some ⟨top_left, Vec2.add text_size padding⟩))
        && (decide (ctx.input_state.activate_button = .Up)
          && decide (ctx.state.active_rect = some ⟨top_left, Vec2.add text_size padding⟩))) := by
  unfold button_raw
  dsimp only
  rw [check_set_hover_eq]
  rfl

lemma checkbox_toggled (ctx : UIContext) (top_left size : Vec2) (checked : Bool) :
    (ctx.checkbox top_left size checked).2.2 =
      ((Rect.contains ⟨top_left, size⟩ ctx.input_state.mouse_position
          || decide (ctx.state.focused = some ⟨top_left, size⟩))
        && (decide (ctx.input_state.activate_button = .Up)
          && decide (ctx.state.active_rect = some ⟨top_left, size⟩))) := by
  unfold checkbox
  dsimp only
  rw [check_set_hover_eq]
  rfl

end UIContext

open UIContext in
/-- C1: for every frame, the button and checkbox widgets report a click
iff (hovered or focused this frame) and the widget's rectangle equals the
persistent `active_rect` carried in from the previous frame and the
activate button is Up this frame; in particular no click is reported while
the activate button is Down (the press frame), and a widget whose
rectangle is not the active target never reports a click (so a release
over a non-active widget fires neither on it, nor on an unhovered,
unfocused active widget). -/
theorem C1_click_iff (ctx : UIContext) (top_left text_size padding size : Vec2)
    (label : String) (scale : ℚ) (checked : Bool) :
    (((ctx.button_raw top_left text_size padding label scale).2 = true ↔
        ((Rect.contains ⟨top_left, Vec2.add text_size padding⟩
              ctx.input_state.mouse_position = true
            ∨ ctx.state.focused = some ⟨top_left, Vec2.add text_size padding⟩)
          ∧ ctx.state.active_rect = some ⟨top_left, Vec2.add text_size padding⟩
          ∧ ctx.input_state.activate_button = .Up))
      ∧ (ctx.input_state.activate_button = .Down →
          (ctx.button_raw top_left text_size padding label scale).2 = false)
      ∧ (ctx.state.active_rect ≠ some ⟨top_left, Vec2.add text_size padding⟩ →
          (ctx.button_raw top_left text_size padding label scale).2 = false))
    ∧ (((ctx.checkbox top_left size checked).2.2 = true ↔
        ((Rect.contains ⟨top_left, size⟩ ctx.input_state.mouse_position = true
            ∨ ctx.state.focused = some ⟨top_left, size⟩)
          ∧ ctx.state.active_rect = some ⟨top_left, size⟩
          ∧ ctx.input_state.activate_button = .Up))
      ∧ (ctx.input_state.activate_button = .Down →
          (ctx.checkbox top_left size checked).2.2 = false)
      ∧ (ctx.state.active_rect ≠ some ⟨top_left, size⟩ →
          (ctx.checkbox top_left size checked).2.2 = false)) := by
  rw [button_raw_snd, checkbox_toggled]
  refine ⟨⟨?_, fun h => by simp [h], fun h => by simp [h]⟩,
          ⟨?_, fun h => by simp [h], fun h => by simp [h]⟩⟩ <;>
  · simp only [Bool.and_eq_true, Bool.or_eq_true, decide_eq_true_eq]
    tauto

/-- Closed witness for C1 at the repository's own `button_click` test
input: mouse at the origin, activate Up, the button rectangle active from
the previous frame — the click fires. -/
theorem C1_witness :
    ((UIContext.new
        { UIState.new with active_rect := some ⟨⟨0, 0⟩, ⟨72, 20⟩⟩ }
        testFont ⟨⟨0, 0⟩, .Up, .Up⟩).button_raw ⟨0, 0⟩ ⟨64, 16⟩ ⟨8, 4⟩ "b" 1).2
      = true := by
  refine (C1_click_iff (UIContext.new
      { UIState.new with active_rect := some ⟨⟨0, 0⟩, ⟨72, 20⟩⟩ }
      testFont ⟨⟨0, 0⟩, .Up, .Up⟩) ⟨0, 0⟩ ⟨64, 16⟩ ⟨8, 4⟩ ⟨20, 20⟩ "b" 1
      false).1.1.mpr ⟨Or.inl (by decide), by decide, rfl⟩

/-- C2: at frame finalization with the activate button Down, the new
`active_rect` is the hover candidate if set, else the previous focused
rectangle, and the drag accumulator is zeroed exactly when that target
differs from the previous `active_rect`; with the activate button Up the
new `active_rect` is `none` and the accumulator is zero. -/
theorem C2_end_active (ctx : UIContext) :
    (ctx.input_state.activate_button = .Down →
      ctx.«end».new_state.active_rect =
        (match ctx.hover_rect with
         | some r => some r
         | none => ctx.state.focused)
      ∧ ctx.«end».new_state.active_drag_amt =
          (if ctx.state.active_rect ≠
              (match ctx.hover_rect with
               | some r => some r
               | none => ctx.state.focused)
           then 0 else ctx.state.active_drag_amt))
    ∧ (ctx.input_state.activate_button = .Up →
      ctx.«end».new_state.active_rect = none
      ∧ ctx.«end».new_state.active_drag_amt = 0) := by
  constructor <;> intro h <;>
    (unfold UIContext.«end»; rw [h]; simp only [reduceCtorEq, reduceIte, ite_false, ite_true, if_false, if_true]) <;>
    constructor <;>
    · split
      · split <;> rfl
      · rfl

/-- Closed witness for C2: activate Down with a hover candidate differing
from the previous active rectangle — the target becomes active and the
accumulator resets. -/
theorem C2_witness :
    ({ UIContext.new
        { UIState.new with active_rect := some ⟨⟨50, 50⟩, ⟨1, 1⟩⟩,
                           active_drag_amt := 7 }
        testFont ⟨⟨0, 0⟩, .Down, .Up⟩ with
        hover_rect := some ⟨⟨0, 0⟩, ⟨10, 10⟩⟩ } : UIContext).«end».new_state.active_rect
      = some ⟨⟨0, 0⟩, ⟨10, 10⟩⟩ := by
  exact (C2_end_active _).1 rfl |>.1

open UIContext in
/-- C7: the checkbox toggles the caller-owned boolean exactly when a click
per the interaction rules occurs, and appends to the command buffer a
`CheckboxBox` rectangle immediately followed by a `CheckboxCheck`
rectangle — inset by `size/4` on each axis, with the doubled inset
subtracted (saturating) from the size — exactly on the frames where the
boolean is true after the toggle. -/
theorem C7_checkbox (ctx : UIContext) (top_left size : Vec2) (checked : Bool) :
    ((ctx.checkbox top_left size checked).2.2 = true ↔
      ((Rect.contains ⟨top_left, size⟩ ctx.input_state.mouse_position = true
          ∨ ctx.state.focused = some ⟨top_left, size⟩)
        ∧ ctx.state.active_rect = some ⟨top_left, size⟩
        ∧ ctx.input_state.activate_button = .Up))
    ∧ ((ctx.checkbox top_left size checked).2.1 =
        if (ctx.checkbox top_left size checked).2.2 then !checked else checked)
    ∧ ((ctx.checkbox top_left size checked).1.command_buffer =
          ctx.command_buffer
            ++ [.DrawRect ⟨⟨top_left, size⟩,
                  widgetFlags (Rect.contains ⟨top_left, size⟩ ctx.input_state.mouse_position)
                    (ctx.is_active ⟨top_left, size⟩)
                    (decide (ctx.state.focused = some ⟨top_left, size⟩)),
                  .CheckboxBox, ctx.next_class⟩]
            ++ (if (ctx.checkbox top_left size checked).2.1 then
                  [.DrawRect ⟨⟨Vec2.add top_left ⟨size.x / 4, size.y / 4⟩,
                      ⟨satSub size.x (satMul (size.x / 4) 2),
                       satSub size.y (satMul (size.y / 4) 2)⟩⟩,
                    widgetFlags (Rect.contains ⟨top_left, size⟩ ctx.input_state.mouse_position)
                      (ctx.is_active ⟨top_left, size⟩)
                      (decide (ctx.state.focused = some ⟨top_left, size⟩)),
                    .CheckboxCheck, ctx.next_class⟩]
                else [])) := by
  refine ⟨?_, ?_, ?_⟩
  · rw [checkbox_toggled]
    simp only [Bool.and_eq_true, Bool.or_eq_true, decide_eq_true_eq]
    tauto
  · rfl
  · unfold checkbox
    dsimp only
    rw [check_set_hover_eq]
    dsimp only [rect_raw, register_focusable, UIContext.is_active]
    rw [apply_ite UIContext.command_buffer]
    dsimp only
    split_ifs <;> simp [List.append_assoc]

/-- Closed witness for C7 at the repository's own
`checkbox_toggles_and_draws_check` test input: release over the box with
the box active — the boolean toggles to true and both the box and the
inset check rectangle are emitted. -/
theorem C7_witness :
    ((UIContext.new
        { UIState.new with active_rect := some ⟨⟨0, 0⟩, ⟨20, 20⟩⟩,
                           last_mouse_position := ⟨10, 10⟩ }
        testFont ⟨⟨10, 10⟩, .Up, .Up⟩).checkbox ⟨0, 0⟩ ⟨20, 20⟩ false).2.2 = true := by
  refine (C7_checkbox (UIContext.new
      { UIState.new with active_rect := some ⟨⟨0, 0⟩, ⟨20, 20⟩⟩,
                         last_mouse_position := ⟨10, 10⟩ }
      testFont ⟨⟨10, 10⟩, .Up, .Up⟩) ⟨0, 0⟩ ⟨20, 20⟩ false).1.mpr
    ⟨Or.inl (by decide), by decide, rfl⟩

open UIContext in
/-- C6: at frame finalization with the focus-next button Down, focus
advances to the entry after the previously focused rectangle in this
frame's focusable-registration order, wrapping past the last entry back to
the first (index `(i+1) mod length`); with nothing previously focused, the
first registered focusable becomes focused. -/
theorem C6_focus_next (ctx : UIContext)
    (h : ctx.input_state.focus_next_button = .Down) :
    (∀ (r : Rect) (i : Nat), ctx.state.focused = some r →
        ctx.focusables.findIdx? (fun x => x = r) = some i →
        ctx.«end».new_state.focused =
          ctx.focusables[(i + 1) % ctx.focusables.length]?)
    ∧ (ctx.state.focused = none →
        ctx.«end».new_state.focused = ctx.focusables.head?) := by
  constructor
  · intro r i hr hidx
    have hi : i < ctx.focusables.length :=
      (List.findIdx?_eq_some_iff_getElem.mp hidx).1
    cases hact : ctx.input_state.activate_button <;>
    · unfold UIContext.«end»
      rw [h, hact]
      simp only [reduceCtorEq, reduceIte, ite_false, ite_true, if_false, if_true]
      simp only [hr, hidx]
      by_cases hlt : i + 1 < ctx.focusables.length
      · rw [Nat.mod_eq_of_lt hlt, List.getElem?_eq_getElem hlt]
      · have hlen : ctx.focusables.length = i + 1 := by omega
        rw [List.getElem?_eq_none (by omega), hlen, Nat.mod_self,
          List.head?_eq_getElem?]
  · intro hr
    cases hact : ctx.input_state.activate_button <;>
    · unfold UIContext.«end»
      rw [h, hact]
      simp only [reduceCtorEq, reduceIte, ite_false, ite_true, if_false, if_true]
      simp only [hr]

/-- Closed witness for C6 at the repository's own
`tab_focus_advances_through_focusables` test input: with the first of two
buttons focused, a focus-next press moves focus to the second. -/
theorem C6_witness :
    ({ UIContext.new { UIState.new with focused := some ⟨⟨0, 0⟩, ⟨8, 16⟩⟩ }
        testFont ⟨⟨999, 999⟩, .Up, .Down⟩ with
        focusables := [⟨⟨0, 0⟩, ⟨8, 16⟩⟩, ⟨⟨50, 0⟩, ⟨8, 16⟩⟩] } : UIContext).«end».new_state.focused
      = some ⟨⟨50, 0⟩, ⟨8, 16⟩⟩ := by
  rw [(C6_focus_next ({ UIContext.new { UIState.new with focused := some ⟨⟨0, 0⟩, ⟨8, 16⟩⟩ }
        testFont ⟨⟨999, 999⟩, .Up, .Down⟩ with
        focusables := [⟨⟨0, 0⟩, ⟨8, 16⟩⟩, ⟨⟨50, 0⟩, ⟨8, 16⟩⟩] } : UIContext) rfl).1
      ⟨⟨0, 0⟩, ⟨8, 16⟩⟩ 0 rfl (by decide)]
  decide

lemma satAdd_le (a b : Nat) : satAdd a b ≤ u32Max := min_le_right _ _

lemma satAdd_eq_of_le {a b : Nat} (h : a + b ≤ u32Max) : satAdd a b = a + b :=
  min_eq_left h

lemma pow32_lit : (2 : Nat) ^ 32 = 4294967296 := by norm_num

/-- C4 counterexample: the claim says `Vec2::sub` saturates to the
representable minimum, but `0 - 1` on the x component wraps to
`2^32 - 1` (release semantics; a debug build traps), which is not the
saturated value `0`. -/
theorem C4_counterexample :
    (Vec2.sub ⟨0, 0⟩ ⟨1, 0⟩).x = u32Size - 1 ∧ u32Size - 1 ≠ satSub 0 1 := by
  constructor
  · show wrapSub 0 1 = u32Size - 1
    simp only [wrapSub, u32Size, pow32_lit]
  · simp only [satSub, u32Size, pow32_lit]
    omega

/-- C4 (amended): only the layout cursor/extent accumulation of
`Layout::recompute` (and the other explicit `saturating_*` call sites)
clamps at the `u32` bounds; the geometry addition and subtraction
(`Vec2::add` / `Vec2::sub`), the containment test's `top_left + size`, and
hence the button size = text size + padding (computed by `Vec2::add`) use
unchecked `u32` arithmetic that wraps on underflow or overflow (and traps in
debug builds) instead of saturating: an underflowing subtraction differs
from the saturated result, an overflowing addition differs from the
saturated result, and a rectangle whose `top_left + size` overflows fails
to contain a point that lies within the saturating bounds. -/
theorem C4_amended :
    (∀ (l : Layout) (c : Vec2),
      l.size.x ≤ u32Max → c.x ≤ u32Max → l.size.y ≤ u32Max → c.y ≤ u32Max →
      (l.recompute c).size.x ≤ u32Max ∧ (l.recompute c).size.y ≤ u32Max
        ∧ (l.recompute c).top_left.x ≤ max l.top_left.x u32Max
        ∧ (l.recompute c).top_left.y ≤ max l.top_left.y u32Max)
    ∧ (∀ a b : Vec2, a.x < b.x → b.x ≤ u32Max →
        (Vec2.sub a b).x ≠ satSub a.x b.x)
    ∧ (∀ a b : Vec2, a.x ≤ u32Max → b.x ≤ u32Max → u32Max < a.x + b.x →
        (Vec2.add a b).x ≠ satAdd a.x b.x)
    ∧ (Rect.contains ⟨⟨u32Max, 0⟩, ⟨1, 0⟩⟩ ⟨u32Max, 0⟩ = false
        ∧ u32Max ≤ satAdd u32Max 1 ∧ (0 : Nat) ≤ satAdd 0 0) := by
  refine ⟨?_, ?_, ?_, ?_⟩
  · intro l c h1 h2 h3 h4
    cases hd : l.direction
    · unfold Layout.recompute
      rw [hd]
      dsimp only
      exact ⟨max_le h1 h2, satAdd_le _ _, le_max_left _ _,
        le_trans (satAdd_le _ _) (le_max_right _ _)⟩
    · unfold Layout.recompute
      rw [hd]
      dsimp only
      exact ⟨satAdd_le _ _, max_le h3 h4,
        le_trans (satAdd_le _ _) (le_max_right _ _), le_max_left _ _⟩
  · intro a b hlt hle
    simp only [Vec2.sub, wrapSub, satSub, u32Size, u32Max, pow32_lit] at *
    omega
  · intro a b h1 h2 h3
    simp only [Vec2.add, wrapAdd, satAdd, u32Size, u32Max, pow32_lit] at *
    omega
  · refine ⟨?_, ?_, Nat.zero_le _⟩
    · simp only [Rect.contains, wrapAdd, u32Size, u32Max, pow32_lit]
      decide
    · simp only [satAdd, u32Size, u32Max, pow32_lit]
      omega

/-- Closed witness for C4 (amended): the underflowing subtraction `0 - 1`
wraps rather than saturating, and a vertical `recompute` stays within the
`u32` range at a concrete input. -/
theorem C4_witness :
    (Vec2.sub ⟨0, 0⟩ ⟨1, 0⟩).x ≠ satSub 0 1
    ∧ ((⟨.Vertical, 0, ⟨0, 0⟩, ⟨0, 0⟩⟩ : Layout).recompute ⟨5, 7⟩).size.y ≤ u32Max := by
  constructor
  · exact C4_amended.2.1 ⟨0, 0⟩ ⟨1, 0⟩ (by norm_num)
      (by simp only [u32Max, u32Size, pow32_lit]; omega)
  · exact (C4_amended.1 ⟨.Vertical, 0, ⟨0, 0⟩, ⟨0, 0⟩⟩ ⟨5, 7⟩
      (Nat.zero_le _) (by simp only [u32Max, u32Size, pow32_lit]; omega)
      (Nat.zero_le _) (by simp only [u32Max, u32Size, pow32_lit]; omega)).2.1

/-- C5 counterexample: a single text of height 16 laid out in a vertical
layout with spacing 3 advances the cursor to y = 19 (extent + spacing,
since `recompute` adds the spacing after every child including the last),
not to y = 16 = extent + (N-1)·spacing as the claim states. -/
theorem C5_counterexample :
    ((({ UIContext.new UIState.new testFont ⟨⟨0, 0⟩, .Up, .Up⟩ with
          layout_stack := [⟨.Vertical, 3, ⟨0, 0⟩, ⟨0, 0⟩⟩] } : UIContext).text_layout_scaled
        "a" 1).map (fun p => p.1.layout_stack.map Layout.top_left)) = some [⟨0, 19⟩]
    ∧ (19 : Nat) ≠ 16 + (1 - 1) * 3 := by
  constructor
  · decide
  · decide

/-- C10 counterexample: the slider never stamps the ACTIVE bit, so an
active-but-unfocused slider's draw commands carry flags 0 while a
focused-but-unactive one's carry flags 4 — the flag bits differ, refuting
the claim for slider draw commands. -/
theorem C10_counterexample :
    (((UIContext.new
        { UIState.new with active_rect := some ⟨⟨0, 0⟩, ⟨100, 12⟩⟩,
                           last_mouse_position := ⟨999, 999⟩ }
        testFont ⟨⟨999, 999⟩, .Down, .Up⟩).slider i32Slider ⟨⟨0, 0⟩, ⟨100, 12⟩⟩
        ⟨5, 10, 0, 1⟩).1.command_buffer.map DrawCommand.flagsOf = [0, 0])
    ∧ (((UIContext.new
        { UIState.new with focused := some ⟨⟨0, 0⟩, ⟨100, 12⟩⟩,
                           last_mouse_position := ⟨999, 999⟩ }
        testFont ⟨⟨999, 999⟩, .Down, .Up⟩).slider i32Slider ⟨⟨0, 0⟩, ⟨100, 12⟩⟩
        ⟨5, 10, 0, 1⟩).1.command_buffer.map DrawCommand.flagsOf = [4, 4])
    ∧ (0 : Nat) ≠ 4 := by
  refine ⟨by decide, by decide, by decide⟩

open UIContext in
/-- C10 (amended): `flags::ACTIVE` and `flags::FOCUSED` are the same bit
(both `1 << 2`), and for the button and checkbox widgets a widget that is
focused but not active emits draw commands with flag bits identical to one
that is active but not focused (the entire command buffers coincide); the
slider, however, never stamps ACTIVE, so its commands can distinguish the
two states (see the counterexample). -/
theorem C10_amended :
    flags.ACTIVE = 1 <<< 2 ∧ flags.FOCUSED = 1 <<< 2
    ∧ (∀ (ctx : UIContext) (top_left text_size padding : Vec2) (label : String)
         (scale : ℚ),
        (({ ctx with state := { ctx.state with
              active_rect := some ⟨top_left, Vec2.add text_size padding⟩,
              focused := none } } : UIContext).button_raw
            top_left text_size padding label scale).1.command_buffer =
        (({ ctx with state := { ctx.state with
              active_rect := none,
              focused := some ⟨top_left, Vec2.add text_size padding⟩ } } : UIContext).button_raw
            top_left text_size padding label scale).1.command_buffer)
    ∧ (∀ (ctx : UIContext) (top_left size : Vec2) (checked : Bool),
        ctx.input_state.activate_button = .Down →
        (({ ctx with state := { ctx.state with
              active_rect := some ⟨top_left, size⟩,
              focused := none } } : UIContext).checkbox
            top_left size checked).1.command_buffer =
        (({ ctx with state := { ctx.state with
              active_rect := none,
              focused := some ⟨top_left, size⟩ } } : UIContext).checkbox
            top_left size checked).1.command_buffer) := by
  refine ⟨rfl, rfl, ?_, ?_⟩
  · intro ctx top_left text_size padding label scale
    unfold button_raw
    dsimp only
    rw [check_set_hover_eq, check_set_hover_eq]
    dsimp only [rect_raw, text_raw, register_focusable, UIContext.is_active, widgetFlags]
    simp [flags.HOVER, flags.ACTIVE, flags.FOCUSED, flags.NONE]
  · intro ctx top_left size checked hdown
    unfold checkbox
    dsimp only
    rw [check_set_hover_eq, check_set_hover_eq]
    dsimp only [rect_raw, register_focusable, UIContext.is_active,
      UIContext.clicked_rect, widgetFlags]
    simp only [hdown, flags.HOVER, flags.ACTIVE, flags.FOCUSED, flags.NONE,
      reduceCtorEq, decide_False, decide_True, Bool.false_and, Bool.and_false,
      Bool.or_false, Bool.false_or, ite_false, if_false, ite_true, if_true,
      Nat.or_zero, Nat.zero_or]
    simp only [apply_ite UIContext.command_buffer]


/-- Closed witness for C10 (amended) at a concrete button input: the
active-not-focused and focused-not-active command buffers coincide. -/
theorem C10_witness :
    (({ UIContext.new UIState.new testFont ⟨⟨0, 0⟩, .Up, .Up⟩ with
          state := { UIState.new with
            active_rect := some ⟨⟨0, 0⟩, Vec2.add ⟨8, 16⟩ ⟨2, 2⟩⟩,
            focused := none } } : UIContext).button_raw
        ⟨0, 0⟩ ⟨8, 16⟩ ⟨2, 2⟩ "b" 1).1.command_buffer =
    (({ UIContext.new UIState.new testFont ⟨⟨0, 0⟩, .Up, .Up⟩ with
          state := { UIState.new with
            active_rect := none,
            focused := some ⟨⟨0, 0⟩, Vec2.add ⟨8, 16⟩ ⟨2, 2⟩⟩ } } : UIContext).button_raw
        ⟨0, 0⟩ ⟨8, 16⟩ ⟨2, 2⟩ "b" 1).1.command_buffer := by
  exact C10_amended.2.2.1 (UIContext.new UIState.new testFont ⟨⟨0, 0⟩, .Up, .Up⟩)
    ⟨0, 0⟩ ⟨8, 16⟩ ⟨2, 2⟩ "b" 1

lemma rustClamp_mem {α : Type} [LinearOrder α] {v lo hi : α} (h : lo ≤ hi) :
    lo ≤ rustClamp v lo hi ∧ rustClamp v lo hi ≤ hi := by
  unfold rustClamp
  split_ifs with h1 h2
  · exact ⟨le_refl _, h⟩
  · exact ⟨h, le_refl _⟩
  · exact ⟨le_of_not_lt h1, le_of_not_lt h2⟩

lemma rustClamp_of_mem {α : Type} [LinearOrder α] {v lo hi : α}
    (h1 : lo ≤ v) (h2 : v ≤ hi) : rustClamp v lo hi = v := by
  unfold rustClamp
  rw [if_neg (not_lt.mpr h1), if_neg (not_lt.mpr h2)]

lemma sliderDragStep_fields {T : Type} (impl : SliderValueImpl T)
    (st : SliderState T) (a d p : ℚ) :
    (sliderDragStep impl st a d p).1.min = st.min
    ∧ (sliderDragStep impl st a d p).1.max = st.max
    ∧ (sliderDragStep impl st a d p).1.step = st.step := by
  refine ⟨?_, ?_, ?_⟩ <;>
  · unfold sliderDragStep
    dsimp only
    split_ifs <;> rfl

open UIContext in
lemma slider_eq {T : Type} (impl : SliderValueImpl T) (ctx : UIContext)
    (rect : Rect) (st : SliderState T) :
    (ctx.slider impl rect st).2 =
      { value := impl.clamp_value
          (if ctx.is_active rect then
            (sliderDragStep impl st ctx.state.active_drag_amt
              ((ctx.input_state.mouse_position.x : ℚ)
                - (ctx.state.last_mouse_position.x : ℚ))
              (if satSub rect.size.x 10 = 0 then 0
               else (satSub rect.size.x 10 : ℚ)
                 * impl.step_percentage st.step st.min st.max)).1.value
          else st.value)
          st.min st.max
        max := st.max
        min := st.min
        step := st.step }
    ∧ (ctx.slider impl rect st).1.state.active_drag_amt =
      (if ctx.is_active rect then
        (sliderDragStep impl st ctx.state.active_drag_amt
          ((ctx.input_state.mouse_position.x : ℚ)
            - (ctx.state.last_mouse_position.x : ℚ))
          (if satSub rect.size.x 10 = 0 then 0
           else (satSub rect.size.x 10 : ℚ)
             * impl.step_percentage st.step st.min st.max)).2
      else ctx.state.active_drag_amt) := by
  unfold slider
  dsimp only
  rw [check_set_hover_eq]
  dsimp only [register_focusable, rect_raw, UIContext.is_active]
  constructor <;>
  · split
    · first
      | rfl
      | (obtain ⟨h1, h2, h3⟩ := sliderDragStep_fields impl st
           ctx.state.active_drag_amt
           ((ctx.input_state.mouse_position.x : ℚ)
             - (ctx.state.last_mouse_position.x : ℚ))
           (if satSub rect.size.x 10 = 0 then 0
            else (satSub rect.size.x 10 : ℚ)
              * impl.step_percentage st.step st.min st.max)
         rw [h1, h2, h3])
    · rfl

open UIContext in
/-- C9: (a) with a degenerate range (min = max) the percentage and
step-fraction computations of both the integer and the floating
`SliderValue` implementations return 0 instead of dividing by zero;
(b) in the slider widget, when pixels-per-step is non-positive (track
width not exceeding the knob width, or a zero step fraction), any nonzero
accumulated drag applies exactly one increment (positive) or decrement
(negative) and the accumulator resets to zero; (c) after drag processing
the slider value is clamped into [min, max] on every path, active or not. -/
theorem C9_degenerate :
    ((∀ v m s : ℤ, i32Slider.percentage v m m = 0
        ∧ i32Slider.step_percentage s m m = 0)
      ∧ (∀ v m s : ℚ, ratSlider.percentage v m m = 0
        ∧ ratSlider.step_percentage s m m = 0))
    ∧ (∀ (T : Type) (impl : SliderValueImpl T) (ctx : UIContext) (rect : Rect)
         (st : SliderState T),
        ctx.is_active rect = true →
        (rect.size.x ≤ 10 ∨ impl.step_percentage st.step st.min st.max = 0) →
        ((ctx.slider impl rect st).1.state.active_drag_amt = 0
          ∧ (ctx.slider impl rect st).2.value =
            impl.clamp_value
              (if ctx.state.active_drag_amt
                  + ((ctx.input_state.mouse_position.x : ℚ)
                    - (ctx.state.last_mouse_position.x : ℚ)) > 0 then
                impl.increment st.value st.step st.min st.max
              else if ctx.state.active_drag_amt
                  + ((ctx.input_state.mouse_position.x : ℚ)
                    - (ctx.state.last_mouse_position.x : ℚ)) < 0 then
                impl.decrement st.value st.step st.min st.max
              else st.value)
              st.min st.max))
    ∧ ((∀ (ctx : UIContext) (rect : Rect) (st : SliderState ℤ),
          st.min ≤ st.max →
          st.min ≤ (ctx.slider i32Slider rect st).2.value
            ∧ (ctx.slider i32Slider rect st).2.value ≤ st.max)
      ∧ (∀ (ctx : UIContext) (rect : Rect) (st : SliderState ℚ),
          st.min ≤ st.max →
          st.min ≤ (ctx.slider ratSlider rect st).2.value
            ∧ (ctx.slider ratSlider rect st).2.value ≤ st.max)) := by
  refine ⟨⟨?_, ?_⟩, ?_, ?_, ?_⟩
  · intro v m s
    constructor <;> simp [i32Slider]
  · intro v m s
    constructor <;> simp [ratSlider]
  · intro T impl ctx rect st hactive hdeg
    have hpps : (if satSub rect.size.x 10 = 0 then (0 : ℚ)
        else (satSub rect.size.x 10 : ℚ)
          * impl.step_percentage st.step st.min st.max) = 0 := by
      rcases hdeg with hsz | hsp
      · rw [if_pos (show satSub rect.size.x 10 = 0 from Nat.sub_eq_zero_of_le hsz)]
      · split_ifs with h
        · rfl
        · rw [hsp, mul_zero]
    have hstep := sliderDragStep_fields impl st ctx.state.active_drag_amt
      ((ctx.input_state.mouse_position.x : ℚ)
        - (ctx.state.last_mouse_position.x : ℚ)) 0
    constructor
    · rw [(slider_eq impl ctx rect st).2, hactive]
      simp only [ite_true, if_true, hpps]
      unfold sliderDragStep
      rw [if_neg (lt_irrefl 0)]
      split_ifs <;> rfl
    · rw [(slider_eq impl ctx rect st).1, hactive]
      simp only [ite_true, if_true, hpps]
      unfold sliderDragStep
      rw [if_neg (lt_irrefl 0)]
      split_ifs <;> rfl
  · intro ctx rect st h
    rw [(slider_eq i32Slider ctx rect st).1]
    exact rustClamp_mem h
  · intro ctx rect st h
    rw [(slider_eq ratSlider ctx rect st).1]
    exact rustClamp_mem h

/-- Closed witness for C9: an active slider over a 5-pixel-wide track
(narrower than the knob) with accumulated drag 3 applies exactly one
increment and zeroes the accumulator; and the degenerate-range percentage
is zero at a concrete input. -/
theorem C9_witness :
    ((UIContext.new
        { UIState.new with active_rect := some ⟨⟨0, 0⟩, ⟨5, 5⟩⟩,
                           active_drag_amt := 3 }
        testFont ⟨⟨0, 0⟩, .Down, .Up⟩).slider i32Slider ⟨⟨0, 0⟩, ⟨5, 5⟩⟩
        ⟨5, 10, 0, 1⟩).1.state.active_drag_amt = 0
    ∧ ((UIContext.new
        { UIState.new with active_rect := some ⟨⟨0, 0⟩, ⟨5, 5⟩⟩,
                           active_drag_amt := 3 }
        testFont ⟨⟨0, 0⟩, .Down, .Up⟩).slider i32Slider ⟨⟨0, 0⟩, ⟨5, 5⟩⟩
        ⟨5, 10, 0, 1⟩).2.value = 6
    ∧ i32Slider.percentage 3 7 7 = 0 := by
  obtain ⟨h1, h2⟩ := C9_degenerate.2.1 ℤ i32Slider
    (UIContext.new
      { UIState.new with active_rect := some ⟨⟨0, 0⟩, ⟨5, 5⟩⟩,
                         active_drag_amt := 3 }
      testFont ⟨⟨0, 0⟩, .Down, .Up⟩) ⟨⟨0, 0⟩, ⟨5, 5⟩⟩ ⟨5, 10, 0, 1⟩
    (by decide) (Or.inl (by norm_num))
  refine ⟨h1, ?_, (C9_degenerate.1.1 3 7 3).1⟩
  rw [h2]
  rw [if_pos (by norm_num [UIContext.new, UIState.new, Vec2.zero])]
  decide

lemma ratTrunc_one : ratTrunc 1 = 1 := by
  unfold ratTrunc
  rw [Rat.num_one, Rat.den_one]
  norm_num

lemma ratTrunc_zero_of (q : ℚ) (h0 : 0 ≤ q) (h1 : q < 1) : ratTrunc q = 0 := by
  unfold ratTrunc
  rw [if_neg (not_lt.mpr (Rat.num_nonneg.mpr h0))]
  have hnum : 0 ≤ q.num := Rat.num_nonneg.mpr h0
  have hlt : q.num < q.den := by rwa [Rat.lt_one_iff_num_lt_denom] at h1
  have h2 : q.num.natAbs < q.den := by omega
  rw [Nat.div_eq_of_lt h2]
  simp

lemma halfFrame_eq {T : Type} [LinearOrder T] (impl : SliderValueImpl T)
    (v lo hi step : T) (p : ℚ) (hp : 0 < p)
    (hclamp : ∀ x, impl.clamp_value x lo hi = rustClamp x lo hi)
    (hv1 : lo ≤ v) (hv2 : v ≤ hi) :
    sliderActiveFrame impl ⟨v, hi, lo, step⟩ 0 (p / 2) p = (⟨v, hi, lo, step⟩, p / 2) := by
  have hne : p ≠ 0 := ne_of_gt hp
  have htr : ratTrunc ((0 + p / 2) / p) = 0 := by
    rw [zero_add, div_div, mul_comm,
      show p / (p * 2) = 1 / 2 by
        rw [eq_div_iff (by norm_num : (2 : ℚ) ≠ 0)]
        field_simp]
    exact ratTrunc_zero_of _ (by norm_num) (by norm_num)
  unfold sliderActiveFrame sliderDragStep
  dsimp only
  rw [if_pos hp, htr]
  rw [rustClamp_of_mem (by norm_num [i32Min, i32Max]) (by norm_num [i32Min, i32Max])]
  rw [if_neg (by simp)]
  dsimp only
  rw [hclamp, rustClamp_of_mem hv1 hv2, zero_add]

lemma wholeFrame_eq {T : Type} [LinearOrder T] (impl : SliderValueImpl T)
    (v lo hi step : T) (p drag : ℚ) (hp : 0 < p) (hdrag : drag = 0)
    (hclamp : ∀ x, impl.clamp_value x lo hi = rustClamp x lo hi)
    (hinc : lo ≤ impl.increment v step lo hi ∧ impl.increment v step lo hi ≤ hi) :
    sliderActiveFrame impl ⟨v, hi, lo, step⟩ drag p p =
      (⟨impl.increment v step lo hi, hi, lo, step⟩, 0) := by
  have hne : p ≠ 0 := ne_of_gt hp
  have htr : ratTrunc ((drag + p) / p) = 1 := by
    rw [hdrag, zero_add, div_self hne, ratTrunc_one]
  unfold sliderActiveFrame sliderDragStep
  dsimp only
  rw [if_pos hp, htr]
  rw [rustClamp_of_mem (by norm_num [i32Min, i32Max]) (by norm_num [i32Min, i32Max])]
  rw [if_pos (by norm_num), if_pos (by norm_num)]
  dsimp only
  rw [show ((1 : ℤ).toNat) = 1 from rfl, Function.iterate_one]
  rw [hclamp, rustClamp_of_mem hinc.1 hinc.2]
  rw [hdrag, zero_add, Int.cast_one, one_mul, sub_self]

lemma halves_eq_whole {T : Type} [LinearOrder T] (impl : SliderValueImpl T)
    (v lo hi step : T) (p : ℚ) (hp : 0 < p)
    (hclamp : ∀ x, impl.clamp_value x lo hi = rustClamp x lo hi)
    (hinc : lo ≤ impl.increment v step lo hi ∧ impl.increment v step lo hi ≤ hi)
    (hv1 : lo ≤ v) (hv2 : v ≤ hi) :
    (sliderActiveFrame impl
        (sliderActiveFrame impl ⟨v, hi, lo, step⟩ 0 (p / 2) p).1
        (sliderActiveFrame impl ⟨v, hi, lo, step⟩ 0 (p / 2) p).2 (p / 2) p)
      = sliderActiveFrame impl ⟨v, hi, lo, step⟩ 0 p p := by
  rw [halfFrame_eq impl v lo hi step p hp hclamp hv1 hv2]
  rw [wholeFrame_eq impl v lo hi step p 0 hp rfl hclamp hinc]
  rw [show sliderActiveFrame impl ⟨v, hi, lo, step⟩ (p / 2) (p / 2) p =
      sliderActiveFrame impl ⟨v, hi, lo, step⟩ (p / 2) (p / 2) p from rfl]
  have hdrag : (p / 2 : ℚ) + p / 2 - p = 0 := by ring
  have hne : p ≠ 0 := ne_of_gt hp
  have htr : ratTrunc ((p / 2 + p / 2) / p) = 1 := by
    rw [add_halves, div_self hne, ratTrunc_one]
  unfold sliderActiveFrame sliderDragStep
  dsimp only
  rw [if_pos hp, htr]
  rw [rustClamp_of_mem (by norm_num [i32Min, i32Max]) (by norm_num [i32Min, i32Max])]
  rw [if_pos (by norm_num), if_pos (by norm_num)]
  dsimp only
  rw [show ((1 : ℤ).toNat) = 1 from rfl, Function.iterate_one]
  rw [hclamp, rustClamp_of_mem hinc.1 hinc.2]
  rw [add_halves, Int.cast_one, one_mul, sub_self]

open UIContext in
/-- C3: while a slider is active, each frame applies `sliderActiveFrame`
(the drag-step conversion plus the final clamp) to the caller's value and
the persistent accumulator; with a positive pixels-per-step the whole
steps taken are `trunc(accumulator / pixelsPerStep)` and the consumed
distance `steps · pixelsPerStep` is subtracted, keeping the remainder; so
dragging right by `pixelsPerStep/2` on each of two consecutive frames
yields exactly the same value and accumulator as dragging by
`pixelsPerStep` once, for the integer and for the floating value model;
and the resulting value always lies in `[min, max]` (dragging past max
clamps to max without panicking). -/
theorem C3_slider_drag :
    (∀ (T : Type) (impl : SliderValueImpl T) (ctx : UIContext) (rect : Rect)
       (st : SliderState T),
      ctx.is_active rect = true →
      ((ctx.slider impl rect st).2.value =
          (sliderActiveFrame impl st ctx.state.active_drag_amt
            ((ctx.input_state.mouse_position.x : ℚ)
              - (ctx.state.last_mouse_position.x : ℚ))
            (if satSub rect.size.x 10 = 0 then 0
             else (satSub rect.size.x 10 : ℚ)
               * impl.step_percentage st.step st.min st.max)).1.value
        ∧ (ctx.slider impl rect st).1.state.active_drag_amt =
          (sliderActiveFrame impl st ctx.state.active_drag_amt
            ((ctx.input_state.mouse_position.x : ℚ)
              - (ctx.state.last_mouse_position.x : ℚ))
            (if satSub rect.size.x 10 = 0 then 0
             else (satSub rect.size.x 10 : ℚ)
               * impl.step_percentage st.step st.min st.max)).2))
    ∧ (∀ (T : Type) (impl : SliderValueImpl T) (st : SliderState T) (a d p : ℚ),
        0 < p →
        i32Min ≤ ratTrunc ((a + d) / p) → ratTrunc ((a + d) / p) ≤ i32Max →
        (sliderDragStep impl st a d p).2 =
          (a + d) - (ratTrunc ((a + d) / p) : ℚ) * p)
    ∧ ((∀ (v lo hi step : ℤ) (p : ℚ), 0 < p → lo ≤ v → v ≤ hi →
          sliderActiveFrame i32Slider
              (sliderActiveFrame i32Slider ⟨v, hi, lo, step⟩ 0 (p / 2) p).1
              (sliderActiveFrame i32Slider ⟨v, hi, lo, step⟩ 0 (p / 2) p).2 (p / 2) p
            = sliderActiveFrame i32Slider ⟨v, hi, lo, step⟩ 0 p p)
      ∧ (∀ (v lo hi step : ℚ) (p : ℚ), 0 < p → lo ≤ v → v ≤ hi →
          sliderActiveFrame ratSlider
              (sliderActiveFrame ratSlider ⟨v, hi, lo, step⟩ 0 (p / 2) p).1
              (sliderActiveFrame ratSlider ⟨v, hi, lo, step⟩ 0 (p / 2) p).2 (p / 2) p
            = sliderActiveFrame ratSlider ⟨v, hi, lo, step⟩ 0 p p))
    ∧ ((∀ (v lo hi step : ℤ) (a d p : ℚ), lo ≤ hi →
          lo ≤ (sliderActiveFrame i32Slider ⟨v, hi, lo, step⟩ a d p).1.value
            ∧ (sliderActiveFrame i32Slider ⟨v, hi, lo, step⟩ a d p).1.value ≤ hi)
      ∧ (∀ (v lo hi step : ℚ) (a d p : ℚ), lo ≤ hi →
          lo ≤ (sliderActiveFrame ratSlider ⟨v, hi, lo, step⟩ a d p).1.value
            ∧ (sliderActiveFrame ratSlider ⟨v, hi, lo, step⟩ a d p).1.value ≤ hi)) := by
  refine ⟨?_, ?_, ⟨?_, ?_⟩, ⟨?_, ?_⟩⟩
  · intro T impl ctx rect st hactive
    obtain ⟨h1, h2, h3⟩ := sliderDragStep_fields impl st ctx.state.active_drag_amt
      ((ctx.input_state.mouse_position.x : ℚ)
        - (ctx.state.last_mouse_position.x : ℚ))
      (if satSub rect.size.x 10 = 0 then 0
       else (satSub rect.size.x 10 : ℚ)
         * impl.step_percentage st.step st.min st.max)
    constructor
    · rw [(slider_eq impl ctx rect st).1, hactive]
      simp only [ite_true, if_true]
      unfold sliderActiveFrame
      dsimp only
      rw [h1, h2]
    · rw [(slider_eq impl ctx rect st).2, hactive]
      simp only [ite_true, if_true]
      rfl
  · intro T impl st a d p hp hlo hhi
    unfold sliderDragStep
    dsimp only
    rw [if_pos hp, rustClamp_of_mem hlo hhi]
    by_cases hk : ratTrunc ((a + d) / p) = 0
    · rw [if_neg (not_ne_iff.mpr hk), hk]
      push_cast
      ring
    · rw [if_pos hk]
  · intro v lo hi step p hp hv1 hv2
    exact halves_eq_whole i32Slider v lo hi step p hp (fun x => rfl)
      (rustClamp_mem (le_trans hv1 hv2)) hv1 hv2
  · intro v lo hi step p hp hv1 hv2
    exact halves_eq_whole ratSlider v lo hi step p hp (fun x => rfl)
      (rustClamp_mem (le_trans hv1 hv2)) hv1 hv2
  · intro v lo hi step a d p h
    unfold sliderActiveFrame
    dsimp only
    obtain ⟨h1, h2, h3⟩ := sliderDragStep_fields i32Slider ⟨v, hi, lo, step⟩ a d p
    rw [h1, h2]
    exact rustClamp_mem h
  · intro v lo hi step a d p h
    unfold sliderActiveFrame
    dsimp only
    obtain ⟨h1, h2, h3⟩ := sliderDragStep_fields ratSlider ⟨v, hi, lo, step⟩ a d p
    rw [h1, h2]
    exact rustClamp_mem h

/-- Closed witness for C3: with pixels-per-step 9 over range [0, 10], two
half-drags of 4.5 pixels equal one drag of 9 pixels (one increment,
remainder zero), and the result of a huge 1000-pixel drag is clamped to
the max. -/
theorem C3_witness :
    (sliderActiveFrame i32Slider
        (sliderActiveFrame i32Slider ⟨5, 10, 0, 1⟩ 0 (9 / 2) 9).1
        (sliderActiveFrame i32Slider ⟨5, 10, 0, 1⟩ 0 (9 / 2) 9).2 (9 / 2) 9
      = sliderActiveFrame i32Slider ⟨5, 10, 0, 1⟩ 0 9 9)
    ∧ (sliderActiveFrame i32Slider ⟨5, 10, 0, 1⟩ 0 1000 9).1.value ≤ 10 := by
  constructor
  · exact C3_slider_drag.2.2.1.1 5 0 10 1 9 (by norm_num) (by norm_num) (by norm_num)
  · exact (C3_slider_drag.2.2.2.1 5 0 10 1 0 1000 9 (by norm_num)).2

open UIContext in
/-- C8: entering a backgrounded layout scope appends a `LayoutBackground`
rectangle with a zero placeholder size before any child command; at scope
exit exactly that command (addressed by its buffer index — the length of
the buffer at entry) is rewritten in place so its size becomes the
layout's final accumulated size, while the preceding commands and every
child command (`tail`) are returned verbatim; the parent layout receives
the final size via `recompute` (a closure that pushes nothing reports size
(0, 0) and leaves a zero-size background). The hypotheses describe any
well-behaved child closure: it only appends commands (`hbuf`) and leaves
the layout stack balanced with final top layout `Lf` (`hstk`). -/
theorem C8_layout_background {A : Type} (ctx : UIContext) (top_left : Vec2)
    (direction : LayoutDirection) (spacing : Nat)
    (draw : UIContext → UIContext × A)
    (h : Layout) (rest : List Layout) (Lf : Layout) (tail : List DrawCommand)
    (hstack : ctx.layout_stack = h :: rest)
    (hbuf : (draw (ctx.layoutEntry top_left direction spacing)).1.command_buffer =
      ctx.command_buffer
        ++ [.DrawRect ⟨⟨top_left, Vec2.zero⟩, flags.NONE, .LayoutBackground,
              ctx.next_class⟩]
        ++ tail)
    (hstk : (draw (ctx.layoutEntry top_left direction spacing)).1.layout_stack =
      Lf :: ctx.layout_stack) :
    ctx.layout_at top_left direction spacing true draw =
      some ({ (draw (ctx.layoutEntry top_left direction spacing)).1 with
                layout_stack := h.recompute Lf.size :: rest
                command_buffer :=
                  ctx.command_buffer
                    ++ [.DrawRect ⟨⟨top_left, Lf.size⟩, flags.NONE,
                          .LayoutBackground, ctx.next_class⟩]
                    ++ tail },
            (draw (ctx.layoutEntry top_left direction spacing)).2) := by
  unfold layout_at
  dsimp only
  rw [if_pos rfl]
  dsimp only
  rw [hstk]
  dsimp only
  unfold recompute_current_layout
  dsimp only
  rw [hstack]
  dsimp only
  rw [hbuf, List.append_assoc,
    List.getElem?_append_right (le_refl ctx.command_buffer.length)]
  simp only [Nat.sub_self, List.singleton_append, List.getElem?_cons_zero]
  rw [List.set_append_right _ _ (le_refl ctx.command_buffer.length)]
  simp only [Nat.sub_self, List.set_cons_zero, List.append_assoc,
    List.singleton_append]

/-- Closed witness for C8: a backgrounded vertical scope whose closure
draws nothing patches its zero-placeholder background with the final size
(0, 0) and folds (0, 0) into the parent layout. -/
theorem C8_witness :
    (UIContext.new UIState.new testFont ⟨⟨0, 0⟩, .Up, .Up⟩).layout_at ⟨7, 9⟩
        .Vertical 2 true (fun c => (c, 0)) =
      some ({ (fun c => (c, 0))
                ((UIContext.new UIState.new testFont
                  ⟨⟨0, 0⟩, .Up, .Up⟩).layoutEntry ⟨7, 9⟩ .Vertical 2) |>.1 with
                layout_stack :=
                  (Layout.recompute ⟨.Horizontal, 0, Vec2.zero, Vec2.zero⟩
                    (⟨.Vertical, 2, ⟨7, 9⟩, Vec2.zero⟩ : Layout).size) :: []
                command_buffer :=
                  [] ++ [.DrawRect ⟨⟨⟨7, 9⟩,
                      (⟨.Vertical, 2, ⟨7, 9⟩, Vec2.zero⟩ : Layout).size⟩,
                    flags.NONE, .LayoutBackground, none⟩] ++ [] },
            0) := by
  exact C8_layout_background (UIContext.new UIState.new testFont ⟨⟨0, 0⟩, .Up, .Up⟩)
    ⟨7, 9⟩ .Vertical 2 (fun c => (c, 0)) ⟨.Horizontal, 0, Vec2.zero, Vec2.zero⟩ []
    ⟨.Vertical, 2, ⟨7, 9⟩, Vec2.zero⟩ [] rfl (by simp [UIContext.layoutEntry, UIContext.rect_raw,
      UIContext.new]) rfl

lemma sumY_cons (c : Vec2) (cs : List Vec2) : sumY (c :: cs) = c.y + sumY cs := by
  simp [sumY]

lemma maxX_cons (c : Vec2) (cs : List Vec2) : maxX (c :: cs) = max c.x (maxX cs) := by
  simp [maxX]

lemma vfold_pos (sizes : List Vec2) (l : Layout)
    (hdir : l.direction = .Vertical)
    (hpos : ∀ c ∈ sizes, 0 < c.y)
    (hb1 : l.top_left.y + sumY sizes + sizes.length * l.spacing ≤ u32Max)
    (hb2 : l.size.y + sumY sizes + sizes.length * l.spacing ≤ u32Max)
    (hy : 0 < l.size.y) :
    sizes.foldl Layout.recompute l =
      ⟨.Vertical, l.spacing,
        ⟨l.top_left.x, l.top_left.y + sumY sizes + sizes.length * l.spacing⟩,
        ⟨max l.size.x (maxX sizes),
         l.size.y + sumY sizes + sizes.length * l.spacing⟩⟩ := by
  induction sizes generalizing l with
  | nil =>
    rcases l with ⟨d, sp, ⟨tx, ty⟩, ⟨sx, sy⟩⟩
    cases hdir
    simp [sumY, maxX]
  | cons c cs ih =>
    rcases l with ⟨d, sp, ⟨tx, ty⟩, ⟨sx, sy⟩⟩
    dsimp only at hdir hb1 hb2 hy ⊢
    subst hdir
    have hcy : 0 < c.y := hpos c (List.mem_cons_self c cs)
    rw [sumY_cons] at hb1 hb2
    rw [List.length_cons, Nat.succ_mul] at hb1 hb2
    have hrec : Layout.recompute ⟨.Vertical, sp, ⟨tx, ty⟩, ⟨sx, sy⟩⟩ c =
        ⟨.Vertical, sp, ⟨tx, ty + c.y + sp⟩, ⟨max sx c.x, sy + sp + c.y⟩⟩ := by
      unfold Layout.recompute
      dsimp only
      rw [if_pos (Nat.pos_iff_ne_zero.mp hy)]
      rw [show satAdd c.y sp = c.y + sp from
        satAdd_eq_of_le (show c.y + sp ≤ u32Max by omega)]
      rw [show satAdd sy sp = sy + sp from
        satAdd_eq_of_le (show sy + sp ≤ u32Max by omega)]
      rw [show satAdd ty (c.y + sp) = ty + (c.y + sp) from
        satAdd_eq_of_le (show ty + (c.y + sp) ≤ u32Max by omega)]
      rw [show satAdd (sy + sp) c.y = sy + sp + c.y from
        satAdd_eq_of_le (show sy + sp + c.y ≤ u32Max by omega)]
      simp only [Layout.mk.injEq, Vec2.mk.injEq]
      and_intros <;> first | rfl | trivial | omega
    rw [List.foldl_cons, hrec]
    rw [ih ⟨.Vertical, sp, ⟨tx, ty + c.y + sp⟩, ⟨max sx c.x, sy + sp + c.y⟩⟩ rfl
        (fun d hd => hpos d (List.mem_cons_of_mem c hd))
        (by dsimp only; omega) (by dsimp only; omega) (by dsimp only; omega)]
    simp only [Layout.mk.injEq, Vec2.mk.injEq, sumY_cons, maxX_cons,
      List.length_cons, Nat.succ_mul]
    and_intros <;> first | rfl | trivial | omega

lemma vfold_zero (c : Vec2) (cs : List Vec2) (l : Layout)
    (hdir : l.direction = .Vertical)
    (hzero : l.size.y = 0)
    (hpos : ∀ d ∈ c :: cs, 0 < d.y)
    (hb1 : l.top_left.y + sumY (c :: cs) + (c :: cs).length * l.spacing ≤ u32Max)
    (hb2 : sumY (c :: cs) + (c :: cs).length * l.spacing ≤ u32Max) :
    (c :: cs).foldl Layout.recompute l =
      ⟨.Vertical, l.spacing,
        ⟨l.top_left.x, l.top_left.y + sumY (c :: cs) + (c :: cs).length * l.spacing⟩,
        ⟨max l.size.x (maxX (c :: cs)),
         sumY (c :: cs) + ((c :: cs).length - 1) * l.spacing⟩⟩ := by
  rcases l with ⟨d, sp, ⟨tx, ty⟩, ⟨sx, sy⟩⟩
  dsimp only at hdir hzero hb1 hb2 ⊢
  subst hdir
  subst hzero
  have hcy : 0 < c.y := hpos c (List.mem_cons_self c cs)
  rw [sumY_cons] at hb1 hb2
  rw [List.length_cons, Nat.succ_mul] at hb1 hb2
  have hrec : Layout.recompute ⟨.Vertical, sp, ⟨tx, ty⟩, ⟨sx, 0⟩⟩ c =
      ⟨.Vertical, sp, ⟨tx, ty + c.y + sp⟩, ⟨max sx c.x, c.y⟩⟩ := by
    unfold Layout.recompute
    dsimp only
    rw [if_neg (by simp)]
    rw [show satAdd c.y sp = c.y + sp from
      satAdd_eq_of_le (show c.y + sp ≤ u32Max by omega)]
    rw [show satAdd ty (c.y + sp) = ty + (c.y + sp) from
      satAdd_eq_of_le (show ty + (c.y + sp) ≤ u32Max by omega)]
    rw [show satAdd 0 c.y = 0 + c.y from
      satAdd_eq_of_le (show 0 + c.y ≤ u32Max by omega)]
    simp only [Layout.mk.injEq, Vec2.mk.injEq]
    and_intros <;> first | rfl | trivial | omega
  rw [List.foldl_cons, hrec]
  rw [vfold_pos cs ⟨.Vertical, sp, ⟨tx, ty + c.y + sp⟩, ⟨max sx c.x, c.y⟩⟩ rfl
      (fun d hd => hpos d (List.mem_cons_of_mem c hd))
      (by dsimp only; omega) (by dsimp only; omega) (by dsimp only; omega)]
  simp only [Layout.mk.injEq, Vec2.mk.injEq, sumY_cons, maxX_cons,
    List.length_cons, Nat.succ_mul]
  and_intros <;> first | rfl | trivial | omega

lemma vec2_swap_involutive (v : Vec2) : v.swap.swap = v := rfl

lemma layout_swap_involutive (l : Layout) : l.swap.swap = l := by
  rcases l with ⟨d, sp, tl, sz⟩
  cases d <;> rfl

lemma recompute_swap (l : Layout) (c : Vec2) :
    (l.swap).recompute c.swap = (l.recompute c).swap := by
  rcases l with ⟨d, sp, ⟨tx, ty⟩, ⟨sx, sy⟩⟩
  cases d <;> rfl

lemma foldl_recompute_swap (sizes : List Vec2) (l : Layout) :
    (sizes.map Vec2.swap).foldl Layout.recompute l.swap =
      (sizes.foldl Layout.recompute l).swap := by
  induction sizes generalizing l with
  | nil => rfl
  | cons c cs ih =>
    rw [List.map_cons, List.foldl_cons, List.foldl_cons, recompute_swap]
    exact ih (l.recompute c)

lemma sumY_map_swap (sizes : List Vec2) : sumY (sizes.map Vec2.swap) = sumX sizes := by
  simp [sumY, sumX, List.map_map]
  rfl

lemma maxX_map_swap (sizes : List Vec2) : maxX (sizes.map Vec2.swap) = maxY sizes := by
  simp [maxX, maxY, List.map_map]
  rfl

lemma hfold_zero (c : Vec2) (cs : List Vec2) (l : Layout)
    (hdir : l.direction = .Horizontal)
    (hzero : l.size.x = 0)
    (hpos : ∀ d ∈ c :: cs, 0 < d.x)
    (hb1 : l.top_left.x + sumX (c :: cs) + (c :: cs).length * l.spacing ≤ u32Max)
    (hb2 : sumX (c :: cs) + (c :: cs).length * l.spacing ≤ u32Max) :
    (c :: cs).foldl Layout.recompute l =
      ⟨.Horizontal, l.spacing,
        ⟨l.top_left.x + sumX (c :: cs) + (c :: cs).length * l.spacing, l.top_left.y⟩,
        ⟨sumX (c :: cs) + ((c :: cs).length - 1) * l.spacing,
         max l.size.y (maxY (c :: cs))⟩⟩ := by
  have key := vfold_zero c.swap (cs.map Vec2.swap) l.swap
    (by rcases l with ⟨d, sp, tl, sz⟩; cases d <;> simp_all [Layout.swap, LayoutDirection.swap])
    (by rcases l with ⟨d, sp, tl, ⟨sx, sy⟩⟩; simpa [Layout.swap, Vec2.swap] using hzero)
    (by
      intro d hd
      rcases List.mem_cons.mp hd with h | h
      · subst h; exact hpos c (List.mem_cons_self c cs)
      · obtain ⟨e, he, hes⟩ := List.mem_map.mp h
        subst hes
        exact hpos e (List.mem_cons_of_mem c he))
    (by
      show l.swap.top_left.y + sumY (c.swap :: cs.map Vec2.swap)
        + (c.swap :: cs.map Vec2.swap).length * l.swap.spacing ≤ u32Max
      rw [show (c.swap :: cs.map Vec2.swap) = (c :: cs).map Vec2.swap from rfl,
        sumY_map_swap]
      simpa [Layout.swap, Vec2.swap] using hb1)
    (by
      rw [show (c.swap :: cs.map Vec2.swap) = (c :: cs).map Vec2.swap from rfl,
        sumY_map_swap]
      simpa [Layout.swap, Vec2.swap] using hb2)
  have key2 : ((c :: cs).map Vec2.swap).foldl Layout.recompute l.swap =
      ⟨.Vertical, l.spacing,
        ⟨l.top_left.y, l.top_left.x + sumX (c :: cs) + (c :: cs).length * l.spacing⟩,
        ⟨max l.size.y (maxY (c :: cs)),
         sumX (c :: cs) + ((c :: cs).length - 1) * l.spacing⟩⟩ := by
    rw [show ((c :: cs).map Vec2.swap) = c.swap :: cs.map Vec2.swap from rfl, key]
    rw [show (c.swap :: cs.map Vec2.swap) = (c :: cs).map Vec2.swap from rfl,
      sumY_map_swap, maxX_map_swap]
    rcases l with ⟨d, sp, ⟨tx, ty⟩, ⟨sx, sy⟩⟩
    simp [Layout.swap, Vec2.swap, List.length_map]
  have := foldl_recompute_swap (c :: cs) l
  rw [key2] at this
  have hswap := congrArg Layout.swap this
  rw [layout_swap_involutive] at hswap
  rw [← hswap]
  rfl

open UIContext in
lemma layoutTexts_stack (labels : List String) (ctx : UIContext) (scale : ℚ)
    (L : Layout) (rest : List Layout) (hstack : ctx.layout_stack = L :: rest) :
    ∃ ctx', layoutTexts ctx labels scale = some ctx'
      ∧ ctx'.layout_stack =
          ((labels.map (fun lb => ctx.font_info lb scale)).foldl Layout.recompute L)
            :: rest := by
  induction labels generalizing ctx L with
  | nil => exact ⟨ctx, rfl, by simp [hstack]⟩
  | cons lb ls ih =>
    have hcur : ctx.get_current_layout = some L := by
      rw [UIContext.get_current_layout, hstack]
      rfl
    have hstep : ctx.text_layout_scaled lb scale =
        some ({ ctx.text_scaled lb ⟨L.top_left, ctx.font_info lb scale⟩ scale with
                  layout_stack := L.recompute (ctx.font_info lb scale) :: rest },
              ctx.font_info lb scale) := by
      unfold UIContext.text_layout_scaled
      rw [hcur]
      dsimp only
      unfold UIContext.recompute_current_layout
      rw [show (ctx.text_scaled lb ⟨L.top_left, ctx.font_info lb scale⟩
            scale).layout_stack = L :: rest from hstack]
    obtain ⟨ctxF, h1, h2⟩ := ih
      ({ ctx.text_scaled lb ⟨L.top_left, ctx.font_info lb scale⟩ scale with
          layout_stack := L.recompute (ctx.font_info lb scale) :: rest })
      (L.recompute (ctx.font_info lb scale)) rfl
    refine ⟨ctxF, ?_, ?_⟩
    · unfold layoutTexts
      rw [hstep]
      exact h1
    · rw [h2]
      rw [List.map_cons, List.foldl_cons]
      rfl

open UIContext in
/-- C5 (amended): for N ≥ 1 sequential texts with nonzero main-axis
extents in a fresh fixed-direction layout with spacing s (and within the
`u32` saturation bounds), the layout cursor advances along the layout axis
by the sum of the child extents plus N·s — `recompute` adds the spacing
after every child, including the last, so the advance is N·s and not
(N−1)·s as originally claimed; the layout's accumulated main-axis extent
is the sum plus (N−1)·s, and the accumulated cross-axis extent is the
maximum child cross-axis extent. Both directions are covered. -/
theorem C5_amended :
    (∀ (ctx : UIContext) (labels : List String) (scale : ℚ) (sp : Nat)
       (tl : Vec2) (sx : Nat) (rest : List Layout),
      ctx.layout_stack = ⟨.Vertical, sp, tl, ⟨sx, 0⟩⟩ :: rest →
      labels ≠ [] →
      (∀ lb ∈ labels, 0 < (ctx.font_info lb scale).y) →
      tl.y + sumY (labels.map fun lb => ctx.font_info lb scale)
        + labels.length * sp ≤ u32Max →
      sumY (labels.map fun lb => ctx.font_info lb scale)
        + labels.length * sp ≤ u32Max →
      ∃ ctx', layoutTexts ctx labels scale = some ctx'
        ∧ ctx'.layout_stack =
            ⟨.Vertical, sp,
              ⟨tl.x, tl.y + sumY (labels.map fun lb => ctx.font_info lb scale)
                + labels.length * sp⟩,
              ⟨max sx (maxX (labels.map fun lb => ctx.font_info lb scale)),
               sumY (labels.map fun lb => ctx.font_info lb scale)
                + (labels.length - 1) * sp⟩⟩ :: rest)
    ∧ (∀ (ctx : UIContext) (labels : List String) (scale : ℚ) (sp : Nat)
       (tl : Vec2) (sy : Nat) (rest : List Layout),
      ctx.layout_stack = ⟨.Horizontal, sp, tl, ⟨0, sy⟩⟩ :: rest →
      labels ≠ [] →
      (∀ lb ∈ labels, 0 < (ctx.font_info lb scale).x) →
      tl.x + sumX (labels.map fun lb => ctx.font_info lb scale)
        + labels.length * sp ≤ u32Max →
      sumX (labels.map fun lb => ctx.font_info lb scale)
        + labels.length * sp ≤ u32Max →
      ∃ ctx', layoutTexts ctx labels scale = some ctx'
        ∧ ctx'.layout_stack =
            ⟨.Horizontal, sp,
              ⟨tl.x + sumX (labels.map fun lb => ctx.font_info lb scale)
                + labels.length * sp, tl.y⟩,
              ⟨sumX (labels.map fun lb => ctx.font_info lb scale)
                + (labels.length - 1) * sp,
               max sy (maxY (labels.map fun lb => ctx.font_info lb scale))⟩⟩ :: rest) := by
  constructor
  · intro ctx labels scale sp tl sx rest hstack hne hpos hb1 hb2
    obtain ⟨ctx', h1, h2⟩ := layoutTexts_stack labels ctx scale _ _ hstack
    refine ⟨ctx', h1, ?_⟩
    rw [h2]
    rcases hmap : labels.map (fun lb => ctx.font_info lb scale) with _ | ⟨c, cs⟩
    · exact absurd (List.map_eq_nil_iff.mp hmap) hne
    · rw [vfold_zero c cs ⟨.Vertical, sp, tl, ⟨sx, 0⟩⟩ rfl rfl
        (by rw [← hmap]; intro d hd
            obtain ⟨lb, hlb, hlbe⟩ := List.mem_map.mp hd
            subst hlbe
            exact hpos lb hlb)
        (by rw [← hmap]; simpa using hb1) (by rw [← hmap]; simpa using hb2)]
      rw [← hmap]
      simp [List.length_map]
  · intro ctx labels scale sp tl sy rest hstack hne hpos hb1 hb2
    obtain ⟨ctx', h1, h2⟩ := layoutTexts_stack labels ctx scale _ _ hstack
    refine ⟨ctx', h1, ?_⟩
    rw [h2]
    rcases hmap : labels.map (fun lb => ctx.font_info lb scale) with _ | ⟨c, cs⟩
    · exact absurd (List.map_eq_nil_iff.mp hmap) hne
    · rw [hfold_zero c cs ⟨.Horizontal, sp, tl, ⟨0, sy⟩⟩ rfl rfl
        (by rw [← hmap]; intro d hd
            obtain ⟨lb, hlb, hlbe⟩ := List.mem_map.mp hd
            subst hlbe
            exact hpos lb hlb)
        (by rw [← hmap]; simpa using hb1) (by rw [← hmap]; simpa using hb2)]
      rw [← hmap]
      simp [List.length_map]

/-- Closed witness for C5 (amended): two 8×16 texts in a fresh vertical
layout with spacing 3 move the cursor to y = 32 + 2·3 = 38, accumulate
size (8, 32 + 3 = 35). -/
theorem C5_witness :
    (layoutTexts
        ({ UIContext.new UIState.new testFont ⟨⟨0, 0⟩, .Up, .Up⟩ with
            layout_stack := [⟨.Vertical, 3, ⟨0, 0⟩, ⟨0, 0⟩⟩] } : UIContext)
        ["a", "b"] 1).map (fun c => c.layout_stack) =
      some [⟨.Vertical, 3, ⟨0, 38⟩, ⟨8, 35⟩⟩] := by
  obtain ⟨ctx', h1, h2⟩ := C5_amended.1
    ({ UIContext.new UIState.new testFont ⟨⟨0, 0⟩, .Up, .Up⟩ with
        layout_stack := [⟨.Vertical, 3, ⟨0, 0⟩, ⟨0, 0⟩⟩] } : UIContext)
    ["a", "b"] 1 3 ⟨0, 0⟩ 0 [] rfl (by simp)
    (by intro lb hlb; norm_num [UIContext.new, testFont])
    (by norm_num [UIContext.new, testFont, sumY, u32Max, u32Size])
    (by norm_num [UIContext.new, testFont, sumY, u32Max, u32Size])
  rw [h1]
  simp only [Option.map_some']
  rw [h2]
  norm_num [UIContext.new, testFont, sumY, maxX]

end Reimui
